import Mathlib

/-!
Verification development for the Theranostic Digital Twin (TDT) pipeline.

This file shallowly embeds, in Lean 4, the parts of the TDT pipeline that the
specification's claims speak about, and proves (or refutes) each claim against
the embedded code.  Python floats are modelled by exact rationals (`ℚ`);
numpy arrays over a fixed grid are modelled as functions out of `Fin nv`
(flattened voxel index) or as explicit voxel-coordinate functions; fallible
code is modelled with `Except String`.  Each embedded definition is translated
directly from the corresponding function of the repository's source; the
translation notes in the doc comments name the source file and symbol.
-/

namespace TdtSpec

/-! ## Pipeline driver (src/main.py, `TdtPipeline.run`) -/

/-- Pipeline stages invoked by `TdtPipeline.run` (src/main.py). -/
inductive Stage where
  | totalSegmentator
  | roiUnify
  | syntheticLesions
  | simindPreprocess
  | pbpk
  | simindSimulation
  | spectReconstruction
deriving DecidableEq, Repr

/-- Stage-invocation trace of `TdtPipeline.run` as the source executes it
(src/main.py lines 279-400).  The method runs TotalSegmentator, ROI
unification, the synthetic-lesions stage when `run_synthetic_lesions` is set,
SIMIND preprocessing, and PBPK; the bare `break` statement on line 372
(directly after the PBPK stage and outside of any loop — a Python syntax
error) terminates execution there, so the SIMIND simulation stage and the
SPECT reconstruction stage are never invoked. -/
def tdtRunTrace (runSyntheticLesions : Bool) : List Stage :=
  [Stage.totalSegmentator, Stage.roiUnify]
    ++ (if runSyntheticLesions then [Stage.syntheticLesions] else [])
    ++ [Stage.simindPreprocess, Stage.pbpk]

/-- Modelled from the spec: the seven-stage linear order that §4.10 of the
specification describes for the pipeline driver
(C3 → C4 → (C5 if enabled) → C6 → C7 → C8 → C9). -/
def specRunTrace (runSyntheticLesions : Bool) : List Stage :=
  [Stage.totalSegmentator, Stage.roiUnify]
    ++ (if runSyntheticLesions then [Stage.syntheticLesions] else [])
    ++ [Stage.simindPreprocess, Stage.pbpk,
        Stage.simindSimulation, Stage.spectReconstruction]

/-- C1: the claim states that `TdtPipeline.run` executes all seven stages and
returns the context only after all seven stage invocations have completed.  In
the source, line 372 of src/main.py is a bare `break` directly after the PBPK
stage (outside any loop, which is a Python syntax error; read as an early
exit it stops the method there), so the SIMIND simulation and SPECT
reconstruction stages are never invoked and the executed trace differs from
the spec's seven-stage sequence, whether or not synthetic lesions are
enabled. -/
theorem run_stops_after_pbpk (b : Bool) :
    Stage.simindSimulation ∉ tdtRunTrace b ∧
    Stage.spectReconstruction ∉ tdtRunTrace b ∧
    tdtRunTrace b ≠ specRunTrace b := by
  cases b <;> exact ⟨by decide, by decide, by decide⟩

/-! ## Attenuation-map conversion
(src/stages/spect_pre_process/preprocessing_stage.py, `SimindPreprocessStage._hu_to_mu`) -/

/-- Linear attenuation coefficient of water (1/cm), the default `mu_water`
of `_hu_to_mu` (0.1537). -/
def muWater : ℚ := 1537 / 10000

/-- Linear attenuation coefficient of bone (1/cm), the default `mu_bone`
of `_hu_to_mu` (0.2234). -/
def muBone : ℚ := 2234 / 10000

/-- Per-voxel HU → mu conversion of `SimindPreprocessStage._hu_to_mu`
(preprocessing_stage.py lines 143-180).  The numpy code computes
`mu_water_pixel = mu_water * pixel_size_cm` and
`mu_bone_pixel = mu_bone * pixel_size_cm`, then assigns
`mu_water_pixel * (1 + hu/1000)` on the mask `hu <= 0` and
`mu_water_pixel + (hu/1000) * (mu_bone_pixel - mu_water_pixel)` on `hu > 0`;
the function below is that computation at one voxel, floats replaced by exact
rationals. -/
def hu_to_mu (hu : ℚ) (pixel_size_cm : ℚ) (mu_water : ℚ) (mu_bone : ℚ) : ℚ :=
  let mu_water_pixel := mu_water * pixel_size_cm
  let mu_bone_pixel := mu_bone * pixel_size_cm
  if hu ≤ 0 then mu_water_pixel * (1 + hu / 1000)
  else mu_water_pixel + (hu / 1000) * (mu_bone_pixel - mu_water_pixel)

/-- Modelled from the spec: the bilinear mu value of §4.6
(soft tissue `μ_water × (1 + HU/1000)` for HU ≤ 0, bone
`μ_water + (HU/1000) × (μ_bone − μ_water)` for HU > 0), before the
multiplication by the effective pixel size. -/
def specMu (hu : ℚ) (mu_water : ℚ) (mu_bone : ℚ) : ℚ :=
  if hu ≤ 0 then mu_water * (1 + hu / 1000)
  else mu_water + (hu / 1000) * (mu_bone - mu_water)

/-- C8: for every HU value the attenuation-map conversion of the code returns
`pixel_size_cm` times the spec's bilinear mu value: the code's formulation via
`mu_water_pixel`/`mu_bone_pixel` is algebraically equal to the spec's mu
multiplied by the effective pixel size, with the default constants
`mu_water = 0.1537` and `mu_bone = 0.2234`. -/
theorem hu_to_mu_eq_pixel_size_mul_specMu (hu pixel_size_cm : ℚ) :
    hu_to_mu hu pixel_size_cm muWater muBone
      = pixel_size_cm * specMu hu muWater muBone := by
  unfold hu_to_mu specMu
  split <;> ring

/-! ## Reconstruction calibration
(src/stages/spect_simulation/reconstruction_stage.py) -/

/-- Translation of `SpectReconstructionStage._convert_counts_to_mbq_per_ml`
(reconstruction_stage.py lines 92-100) at one voxel: the numpy expression
`reconstructed_image / sensitivity / frame_duration / output_pixel_width**2
/ output_slice_width` is elementwise, so a single rational value stands for
one voxel of the reconstructed image. -/
def convert_counts_to_mbq_per_ml
    (reconstructed_image sensitivity frame_duration
     output_pixel_width output_slice_width : ℚ) : ℚ :=
  reconstructed_image / sensitivity / frame_duration
    / output_pixel_width ^ 2 / output_slice_width

/-- Frame duration used by the reconstruction stage: the constructor
(reconstruction_stage.py line 39) sets
`self.frame_duration = config["pbpk"]["FrameDurations"][0]`, and
`_get_recon_img` (line 112) passes `self.frame_duration * 60` ("min -> sec")
into the count conversion.  The empty-list default 0 models the Python
IndexError case degenerately and is never exercised below. -/
def reconFrameDurationSec (frameDurations : List ℚ) : ℚ :=
  frameDurations.headD 0 * 60

/-- Calibrated voxel value written by `SpectReconstructionStage.run` for one
frame: the per-frame loop (lines 186-241) calls `_get_recon_img`, which always
divides by `self.frame_duration * 60`, independent of the loop's frame index,
so the model takes no frame index. -/
def reconCalibratedVoxel (recon sensitivity : ℚ) (frameDurations : List ℚ)
    (pw sw : ℚ) : ℚ :=
  convert_counts_to_mbq_per_ml recon sensitivity
    (reconFrameDurationSec frameDurations) pw sw

/-- Modelled from the spec: the calibrated value the claim describes, namely
`recon / sensitivity / frame_duration_sec / pixel_width² / slice_width` where
`frame_duration_sec` is frame `t`'s own entry of `FrameDurations` and the
config declares `FrameDurations` as a list of seconds. -/
def specCalibratedVoxel (recon sensitivity : ℚ) (frameDurations : List ℚ)
    (t : ℕ) (pw sw : ℚ) : ℚ :=
  convert_counts_to_mbq_per_ml recon sensitivity (frameDurations.getD t 0) pw sw

/-- C4 counterexample: with `FrameDurations = [600, 300]` (a list of seconds),
unit sensitivity and unit geometry, the code divides every frame by
`600 * 60 = 36000` while the claim's value for frame 1 divides by 300 and for
frame 0 by 600, so the code disagrees with the claim at both frames. -/
theorem reconCalibrated_ne_spec :
    reconCalibratedVoxel 1 1 [600, 300] 1 1 ≠ specCalibratedVoxel 1 1 [600, 300] 1 1 1 ∧
    reconCalibratedVoxel 1 1 [600, 300] 1 1 ≠ specCalibratedVoxel 1 1 [600, 300] 0 1 1 := by
  constructor <;>
    · unfold reconCalibratedVoxel specCalibratedVoxel convert_counts_to_mbq_per_ml
        reconFrameDurationSec
      norm_num

/-- Per-frame calibrated values written by the reconstruction stage's frame
loop: `run` iterates `for time in self.frame_start` and every iteration uses
the same `self.frame_duration * 60` in the conversion. -/
def reconRunFrames (recon sensitivity : ℚ) (frameStart frameDurations : List ℚ)
    (pw sw : ℚ) : List ℚ :=
  frameStart.map (fun _ => reconCalibratedVoxel recon sensitivity frameDurations pw sw)

/-- C4 amended: for every frame `t` the reconstruction stage computes the
calibrated image as
`recon / sensitivity / (FrameDurations[0] × 60) / pixel_width² / slice_width`,
i.e. the first entry of `FrameDurations`, scaled by 60 as a minutes→seconds
conversion, is used for every frame rather than that frame's own entry in
seconds. -/
theorem reconRunFrames_all_use_first_duration
    (recon sensitivity pw sw : ℚ) (frameStart frameDurations : List ℚ)
    (t : ℕ) (ht : t < frameStart.length) :
    (reconRunFrames recon sensitivity frameStart frameDurations pw sw).getD t 0
      = recon / sensitivity / (frameDurations.headD 0 * 60) / pw ^ 2 / sw := by
  unfold reconRunFrames
  rw [List.getD_eq_getElem?_getD, List.getElem?_map]
  have h : frameStart[t]? = some frameStart[t] := List.getElem?_eq_getElem ht
  rw [h]
  rfl

/-- Witness for the amended C4 theorem at a concrete input: two frames with
`FrameDurations = [600, 300]`, evaluated at frame index 1. -/
theorem reconRunFrames_all_use_first_duration_witness :
    (1 : ℕ) < ([240, 360] : List ℚ).length ∧
    (reconRunFrames 2 4 [240, 360] [600, 300] 1 5).getD 1 0
      = 2 / 4 / (([600, 300] : List ℚ).headD 0 * 60) / 1 ^ 2 / 5 :=
  ⟨by decide, reconRunFrames_all_use_first_duration 2 4 1 5 [240, 360] [600, 300] 1 (by decide)⟩

/-! ## SIMIND frame recombination
(src/stages/spect_simulation/simind_stage.py,
`SimindSimulationStage._combine_organs_into_frame_totals`) -/

/-- Per-frame, per-window projection total assembled by
`_combine_organs_into_frame_totals` (simind_stage.py lines 199-231): for frame
index `t` the accumulator `xtot` starts at the scalar 0 and, per organ of
`roi_list`, numpy broadcasting adds
`w * activity_organ_sum[organ][t] * frame_durations[t]` elementwise, where `w`
is that organ's aggregated projection array for the window.  The flat float32
projection array of one window is modelled as `Fin m → ℚ`.  The same
computation is run once per window with that window's `projOrgan`. -/
def combine_organs_frame_total {m : ℕ} (projOrgan : String → Fin m → ℚ)
    (activityOrganSum : String → ℕ → ℚ) (frameDurations : List ℚ)
    (roiList : List String) (t : ℕ) : Fin m → ℚ :=
  roiList.foldl
    (fun xtot organ => fun i =>
      xtot i + projOrgan organ i * activityOrganSum organ t * frameDurations.getD t 0)
    (fun _ => 0)

theorem combine_organs_frame_total_foldl {m : ℕ} (projOrgan : String → Fin m → ℚ)
    (activityOrganSum : String → ℕ → ℚ) (frameDurations : List ℚ)
    (roiList : List String) (t : ℕ) (i : Fin m) (a : Fin m → ℚ) :
    roiList.foldl
      (fun xtot organ => fun j =>
        xtot j + projOrgan organ j * activityOrganSum organ t * frameDurations.getD t 0)
      a i
      = a i + (roiList.map
          (fun g => projOrgan g i * activityOrganSum g t * frameDurations.getD t 0)).sum := by
  induction roiList generalizing a with
  | nil => simp
  | cons g rest ih =>
    simp only [List.foldl_cons, List.map_cons, List.sum_cons]
    rw [ih]
    ring

/-- C9: for every frame index `t`, window (instantiated through `projOrgan`),
and detector bin `i`, the per-frame projection total equals the sum over the
organs of `roi_list` of the per-organ aggregated projection value times
`activity_organ_sum[g][t]` times `frame_durations[t]` (exactly, in the
rational model of float arithmetic), and the result is unchanged under any
permutation of the organ iteration order. -/
theorem combine_organs_frame_total_eq_sum {m : ℕ} (projOrgan : String → Fin m → ℚ)
    (activityOrganSum : String → ℕ → ℚ) (frameDurations : List ℚ)
    (roiList roiListPerm : List String) (t : ℕ) (i : Fin m)
    (hperm : roiList.Perm roiListPerm) :
    combine_organs_frame_total projOrgan activityOrganSum frameDurations roiList t i
      = (roiList.map
          (fun g => projOrgan g i * activityOrganSum g t * frameDurations.getD t 0)).sum ∧
    combine_organs_frame_total projOrgan activityOrganSum frameDurations roiList t i
      = combine_organs_frame_total projOrgan activityOrganSum frameDurations roiListPerm t i := by
  have h1 := combine_organs_frame_total_foldl projOrgan activityOrganSum frameDurations
    roiList t i (fun _ => 0)
  have h2 := combine_organs_frame_total_foldl projOrgan activityOrganSum frameDurations
    roiListPerm t i (fun _ => 0)
  unfold combine_organs_frame_total
  refine ⟨by rw [h1]; ring, ?_⟩
  rw [h1, h2]
  have hmap : (roiList.map
      (fun g => projOrgan g i * activityOrganSum g t * frameDurations.getD t 0)).Perm
      (roiListPerm.map
      (fun g => projOrgan g i * activityOrganSum g t * frameDurations.getD t 0)) :=
    hperm.map _
  rw [hmap.sum_eq]

/-- Witness for C9 at a concrete input: two organs combined for frame 0 of a
two-bin projection, against the swapped organ order. -/
theorem combine_organs_frame_total_eq_sum_witness :
    combine_organs_frame_total (m := 2)
        (fun g i => if g = "kidney" then (i : ℚ) + 1 else 2 * (i : ℚ))
        (fun g t => if g = "kidney" then 3 else (t : ℚ) + 4)
        [600, 300] ["kidney", "liver"] 0 ⟨1, by decide⟩ = 8400 ∧
    combine_organs_frame_total (m := 2)
        (fun g i => if g = "kidney" then (i : ℚ) + 1 else 2 * (i : ℚ))
        (fun g t => if g = "kidney" then 3 else (t : ℚ) + 4)
        [600, 300] ["kidney", "liver"] 0 ⟨1, by decide⟩
      = combine_organs_frame_total (m := 2)
        (fun g i => if g = "kidney" then (i : ℚ) + 1 else 2 * (i : ℚ))
        (fun g t => if g = "kidney" then 3 else (t : ℚ) + 4)
        [600, 300] ["liver", "kidney"] 0 ⟨1, by decide⟩ := by
  have h := combine_organs_frame_total_eq_sum (m := 2)
    (fun g i => if g = "kidney" then (i : ℚ) + 1 else 2 * (i : ℚ))
    (fun g t => if g = "kidney" then 3 else (t : ℚ) + 4)
    [600, 300] ["kidney", "liver"] ["liver", "kidney"] 0 ⟨1, by decide⟩
    (List.Perm.swap "liver" "kidney" [])
  refine ⟨?_, h.2⟩
  rw [h.1]
  norm_num
  rw [if_neg (by decide)]
  norm_num

/-! ## PBPK stage (src/stages/pbpk/pbpk_stage.py, `PbpkStage`) -/

/-- ROI → VOI table of `PbpkStage._roi_to_voi` (pbpk_stage.py lines 335-358):
`dict.get(roi_name, None)` over the fixed table, `none` when the ROI has no
explicit mapping. -/
def roi_to_voi (roiName : String) : Option String :=
  List.lookup roiName
    [("kidney", "Kidney"), ("body", "Rest"), ("liver", "Liver"),
     ("prostate", "Prostate"), ("heart", "Heart"), ("spleen", "Spleen"),
     ("salivary_glands", "SG")]

/-- VOI-selection logic at the top of `PbpkStage._generate_time_activity_arr_roi`
(pbpk_stage.py lines 441-459): if `_roi_to_voi` gives `None`, fall back to
`"Rest"` when present in `self.vois_pbpk`, else raise; then, if the selected
VOI is not among `self.vois_pbpk`, again fall back to `"Rest"` when present,
else raise. -/
def selectVoi (roiName : String) (voisPbpk : List String) : Except String String :=
  let step1 : Except String String :=
    match roi_to_voi roiName with
    | none =>
        if voisPbpk.contains "Rest" then Except.ok "Rest"
        else Except.error ("No VOI mapping for ROI " ++ roiName ++ " and no Rest VOI exists")
    | some v => Except.ok v
  match step1 with
  | Except.error e => Except.error e
  | Except.ok v =>
      if voisPbpk.contains v then Except.ok v
      else if voisPbpk.contains "Rest" then Except.ok "Rest"
      else Except.error ("ROI " ++ roiName ++ " maps to VOI " ++ v
        ++ " but that VOI is not in the PBPK model and no Rest VOI exists")

/-- Piecewise-linear interpolation `np.interp(x, xp, fp)` over the zipped
sample list (pairs `(xp_i, fp_i)`, `xp` increasing): clamps to `fp[0]` below
the first sample and to `fp[-1]` above the last, linear in between.  The
empty-list result 0 models the (never-exercised) empty-`xp` error case. -/
def npInterp (x : ℚ) : List (ℚ × ℚ) → ℚ
  | [] => 0
  | [(_, f0)] => f0
  | (x0, f0) :: (x1, f1) :: rest =>
      if x ≤ x0 then f0
      else if x ≤ x1 then f0 + (f1 - f0) * (x - x0) / (x1 - x0)
      else npInterp x ((x1, f1) :: rest)

/-- Result record of `PbpkStage._generate_time_activity_arr_roi` for one ROI,
plus the VOI name the stage selected (used for the TAC provenance files). -/
structure PbpkRoiResult (nv : ℕ) where
  activityMapOrgan : ℕ → Fin nv → ℚ
  organSum : ℕ → ℚ
  tacInterp : List ℚ
  voiName : String

/-- Number of voxels inside a boolean mask over the flattened grid `Fin nv`
(`int(np.sum(mask))`). -/
def maskCard {nv : ℕ} (mask : Fin nv → Bool) : ℕ :=
  (Finset.univ.filter (fun v => mask v = true)).card

/-- Translation of `PbpkStage._generate_time_activity_arr_roi`
(pbpk_stage.py lines 400-485).  Steps, in source order: select the VOI
(`selectVoi`); `voi_index = self.vois_pbpk.index(voi_name)`;
`mask = mask_roi_body[label_value]`; error when `n_vox = 0`;
`tac_voi = tacs[0, :, voi_index]` (modelled by `tacs timeIdx voiIdx`);
`tac_interp = np.interp(frame_start, time, tac_voi)`; the per-frame activity
map is zero-initialised and `activity_map_organ[:, mask]` is assigned
`tac_interp[:, None] / (n_vox * voxel_vol_ml)` (numpy masked broadcast:
inside the mask the frame's interpolated value over `n_vox * voxel_vol_ml`,
outside the mask the zero initialisation); the per-frame organ sum is
`np.sum(activity_map_organ, axis=(1,2,3)) * voxel_vol_ml`. -/
def generate_time_activity_arr_roi (nv : ℕ) (roiName : String) (labelValue : ℕ)
    (maskRoiBody : ℕ → Fin nv → Bool) (voxelVolMl : ℚ) (time : List ℚ)
    (tacs : ℕ → ℕ → ℚ) (voisPbpk : List String) (frameStart : List ℚ) :
    Except String (PbpkRoiResult nv) :=
  match selectVoi roiName voisPbpk with
  | Except.error e => Except.error e
  | Except.ok voiName =>
    let voiIndex := voisPbpk.indexOf voiName
    let mask := maskRoiBody labelValue
    let nVox := maskCard mask
    if nVox = 0 then Except.error ("Mask corresponding to " ++ voiName ++ " is empty")
    else
      let tacVoi : List ℚ := (List.range time.length).map (fun ti => tacs ti voiIndex)
      let tacInterp : List ℚ := frameStart.map (fun t => npInterp t (time.zip tacVoi))
      let activityMapOrgan : ℕ → Fin nv → ℚ := fun t v =>
        if mask v then tacInterp.getD t 0 / ((nVox : ℚ) * voxelVolMl) else 0
      let organSum : ℕ → ℚ := fun t => (∑ v, activityMapOrgan t v) * voxelVolMl
      Except.ok ⟨activityMapOrgan, organSum, tacInterp, voiName⟩

/-- C2: for every ROI with non-empty mask (a successful
`_generate_time_activity_arr_roi` call) and every frame index `t`, the PBPK
stage assigns the identical value
`TAC_interp(t) / (n_voxels_roi * voxel_volume_ml)` to every voxel of the ROI
mask in the per-frame activity map, and zero to every voxel outside the
mask. -/
theorem pbpk_activity_uniform_in_roi (nv : ℕ) (roiName : String) (labelValue : ℕ)
    (maskRoiBody : ℕ → Fin nv → Bool) (voxelVolMl : ℚ) (time : List ℚ)
    (tacs : ℕ → ℕ → ℚ) (voisPbpk : List String) (frameStart : List ℚ)
    (res : PbpkRoiResult nv)
    (h : generate_time_activity_arr_roi nv roiName labelValue maskRoiBody voxelVolMl
          time tacs voisPbpk frameStart = Except.ok res)
    (t : ℕ) (_ht : t < frameStart.length) (v : Fin nv) :
    (maskRoiBody labelValue v = true →
      res.activityMapOrgan t v
        = res.tacInterp.getD t 0 / ((maskCard (maskRoiBody labelValue) : ℚ) * voxelVolMl)) ∧
    (maskRoiBody labelValue v = false → res.activityMapOrgan t v = 0) := by
  unfold generate_time_activity_arr_roi at h
  split at h
  · exact absurd h (by simp)
  · dsimp only at h
    split at h
    · exact absurd h (by simp)
    · have hres := (Except.ok.injEq _ _).mp h
      constructor
      · intro hv
        rw [← hres]
        simp [hv]
      · intro hv
        rw [← hres]
        simp [hv]

/-- Witness for C2 at a concrete input: a 3-voxel grid where label 1 masks
the first two voxels, a single frame at time 240, VOIs `["Kidney", "Rest"]`,
and the kidney ROI. -/
theorem pbpk_activity_uniform_in_roi_witness :
    ∃ res : PbpkRoiResult 3,
      generate_time_activity_arr_roi 3 "kidney" 1
          (fun l v => decide (l = 1 ∧ (v : ℕ) < 2)) (1 / 2) [0, 480]
          (fun ti _ => (ti : ℚ)) ["Kidney", "Rest"] [240] = Except.ok res ∧
      (res.activityMapOrgan 0 ⟨0, by decide⟩
          = res.tacInterp.getD 0 0 / ((2 : ℚ) * (1 / 2)) ∧
        res.activityMapOrgan 0 ⟨2, by decide⟩ = 0) := by
  have h := pbpk_activity_uniform_in_roi 3 "kidney" 1
    (fun l v => decide (l = 1 ∧ (v : ℕ) < 2)) (1 / 2) [0, 480]
    (fun ti _ => (ti : ℚ)) ["Kidney", "Rest"] [240] _ rfl
  exact ⟨_, rfl, (h 0 (by decide) ⟨0, by decide⟩).1 (by decide),
    (h 0 (by decide) ⟨2, by decide⟩).2 (by decide)⟩

/-- C10: for an explicitly mapped ROI (`_roi_to_voi` yields `some v`) whose
VOI `v` is not among the configured `vois_pbpk`, the PBPK stage silently
substitutes the `"Rest"` VOI whenever `"Rest"` is configured — a successful
`_generate_time_activity_arr_roi` call then carries the Rest VOI's TAC — and
raises an error only when `"Rest"` is also absent. -/
theorem pbpk_missing_voi_falls_back_to_rest (roiName v : String)
    (voisPbpk : List String)
    (hmap : roi_to_voi roiName = some v)
    (hnotin : voisPbpk.contains v = false) :
    (voisPbpk.contains "Rest" = true →
      selectVoi roiName voisPbpk = Except.ok "Rest" ∧
      ∀ (nv labelValue : ℕ) (maskRoiBody : ℕ → Fin nv → Bool) (voxelVolMl : ℚ)
        (time : List ℚ) (tacs : ℕ → ℕ → ℚ) (frameStart : List ℚ)
        (res : PbpkRoiResult nv),
        generate_time_activity_arr_roi nv roiName labelValue maskRoiBody voxelVolMl
            time tacs voisPbpk frameStart = Except.ok res →
        res.voiName = "Rest") ∧
    (voisPbpk.contains "Rest" = false →
      ∃ e, selectVoi roiName voisPbpk = Except.error e) := by
  constructor
  · intro hrest
    have hs : selectVoi roiName voisPbpk = Except.ok "Rest" := by
      unfold selectVoi
      rw [hmap]
      simp only [hnotin, hrest]
      simp
    refine ⟨hs, ?_⟩
    intro nv labelValue maskRoiBody voxelVolMl time tacs frameStart res hok
    unfold generate_time_activity_arr_roi at hok
    rw [hs] at hok
    dsimp only at hok
    split at hok
    · exact absurd hok (by simp)
    · have hres := (Except.ok.injEq _ _).mp hok
      rw [← hres]
  · intro hrest
    have hs : selectVoi roiName voisPbpk
        = Except.error ("ROI " ++ roiName ++ " maps to VOI " ++ v
          ++ " but that VOI is not in the PBPK model and no Rest VOI exists") := by
      unfold selectVoi
      rw [hmap]
      simp only [hnotin, hrest]
      simp
    exact ⟨_, hs⟩

/-- Witness for C10 at a concrete input: ROI `"kidney"` maps to `"Kidney"`;
with configured VOIs `["Liver", "Rest"]` the stage selects `"Rest"`, and with
`["Liver"]` it errors. -/
theorem pbpk_missing_voi_falls_back_to_rest_witness :
    (selectVoi "kidney" ["Liver", "Rest"] = Except.ok "Rest") ∧
    (∃ e, selectVoi "kidney" ["Liver"] = Except.error e) := by
  have h1 := pbpk_missing_voi_falls_back_to_rest "kidney" "Kidney" ["Liver", "Rest"]
    (by decide) (by decide)
  have h2 := pbpk_missing_voi_falls_back_to_rest "kidney" "Kidney" ["Liver"]
    (by decide) (by decide)
  exact ⟨(h1.1 (by decide)).1, h2.2 (by decide)⟩

/-- Helper facts about a successful `_generate_time_activity_arr_roi` call:
the per-frame organ map vanishes outside the ROI mask, and the per-frame organ
sum is the voxel sum of the organ map times the voxel volume (pbpk_stage.py
lines 472-480). -/
theorem generate_time_activity_arr_roi_ok_facts (nv : ℕ) (roiName : String)
    (labelValue : ℕ) (maskRoiBody : ℕ → Fin nv → Bool) (voxelVolMl : ℚ)
    (time : List ℚ) (tacs : ℕ → ℕ → ℚ) (voisPbpk : List String)
    (frameStart : List ℚ) (res : PbpkRoiResult nv)
    (h : generate_time_activity_arr_roi nv roiName labelValue maskRoiBody voxelVolMl
          time tacs voisPbpk frameStart = Except.ok res) :
    (∀ t v, maskRoiBody labelValue v = false → res.activityMapOrgan t v = 0) ∧
    (∀ t, res.organSum t = (∑ v, res.activityMapOrgan t v) * voxelVolMl) := by
  unfold generate_time_activity_arr_roi at h
  split at h
  · exact absurd h (by simp)
  · dsimp only at h
    split at h
    · exact absurd h (by simp)
    · have hres := (Except.ok.injEq _ _).mp h
      constructor
      · intro t v hv
        rw [← hres]
        simp [hv]
      · intro t
        rw [← hres]

/-- Filter applied by `PbpkStage._remove_background` (pbpk_stage.py lines
101-118): drop the `"background"` entry of the class map if present.  The
Python dict is modelled as an insertion-ordered association list. -/
def remove_background (classSeg : List (String × ℕ)) : List (String × ℕ) :=
  classSeg.filter (fun p => p.1 ≠ "background")

/-- Loop body of `PbpkStage.run` (pbpk_stage.py lines 515-531): iterate the
class map in order; for each ROI call `_generate_time_activity_arr_roi`; on
success assign `activity_map[:, mask] = activity_map_organ[:, mask]` (inside
the ROI mask take the organ map's value, elsewhere keep the accumulator) and
record `(roi_name, organ_sum)`; the first raised error aborts the loop. -/
def pbpkPaint (nv : ℕ) (maskRoiBody : ℕ → Fin nv → Bool) (voxelVolMl : ℚ)
    (time : List ℚ) (tacs : ℕ → ℕ → ℚ) (voisPbpk : List String)
    (frameStart : List ℚ) :
    List (String × ℕ) → (ℕ → Fin nv → ℚ) → List (String × (ℕ → ℚ)) →
    Except String ((ℕ → Fin nv → ℚ) × List (String × (ℕ → ℚ)))
  | [], m, sums => Except.ok (m, sums)
  | (roiName, labelValue) :: rest, m, sums =>
    match generate_time_activity_arr_roi nv roiName labelValue maskRoiBody
        voxelVolMl time tacs voisPbpk frameStart with
    | Except.error e => Except.error e
    | Except.ok res =>
      pbpkPaint nv maskRoiBody voxelVolMl time tacs voisPbpk frameStart rest
        (fun t v => if maskRoiBody labelValue v then res.activityMapOrgan t v else m t v)
        (sums ++ [(roiName, res.organSum)])

/-- Outputs of `PbpkStage.run` relevant here: the aggregated whole-volume
activity map, its per-frame total `np.sum(activity_map, axis=(1,2,3)) *
voxel_vol_ml` (context field `activity_map_sum`), and the per-ROI per-frame
totals (context field `activity_organ_sum`). -/
structure PbpkRunResult (nv : ℕ) where
  activityMap : ℕ → Fin nv → ℚ
  activityMapSum : ℕ → ℚ
  activityOrganSum : List (String × (ℕ → ℚ))

/-- Translation of `PbpkStage.run` (pbpk_stage.py lines 490-546), restricted
to the activity-map assembly: remove the background entry, paint the
whole-volume activity map ROI by ROI starting from zeros, then compute
`activity_map_sum = np.sum(activity_map, axis=(1,2,3)) * voxel_vol_ml`. -/
def pbpk_run (nv : ℕ) (classSeg : List (String × ℕ)) (maskRoiBody : ℕ → Fin nv → Bool)
    (voxelVolMl : ℚ) (time : List ℚ) (tacs : ℕ → ℕ → ℚ) (voisPbpk : List String)
    (frameStart : List ℚ) : Except String (PbpkRunResult nv) :=
  match pbpkPaint nv maskRoiBody voxelVolMl time tacs voisPbpk frameStart
      (remove_background classSeg) (fun _ _ => 0) [] with
  | Except.error e => Except.error e
  | Except.ok (m, sums) =>
    Except.ok ⟨m, fun t => (∑ v, m t v) * voxelVolMl, sums⟩

/-- Disjointness of the ROI masks of two class-map entries, as produced by one
multilabel segmentation (`_build_label_masks` of the preprocessing stage gives
`arr == lab` per label, so distinct labels have disjoint masks). -/
def MasksDisjoint {nv : ℕ} (maskRoiBody : ℕ → Fin nv → Bool)
    (a b : String × ℕ) : Prop :=
  ∀ v, ¬(maskRoiBody a.2 v = true ∧ maskRoiBody b.2 v = true)

instance {nv : ℕ} (maskRoiBody : ℕ → Fin nv → Bool) (a b : String × ℕ) :
    Decidable (MasksDisjoint maskRoiBody a b) := by
  unfold MasksDisjoint
  infer_instance

theorem sum_paint_step {nv : ℕ} (m org : Fin nv → ℚ) (mask : Fin nv → Bool)
    (hm : ∀ v, mask v = true → m v = 0) (ho : ∀ v, mask v = false → org v = 0) :
    (∑ v, (if mask v then org v else m v)) = (∑ v, m v) + (∑ v, org v) := by
  have hpt : ∀ v, (if mask v then org v else m v) = m v + org v := by
    intro v
    by_cases hv : mask v = true
    · rw [if_pos hv, hm v hv]
      ring
    · have hv' : mask v = false := by
        revert hv
        cases mask v <;> simp
      rw [if_neg (by rw [hv']; exact Bool.false_ne_true), ho v hv']
      ring
  rw [Finset.sum_congr rfl (fun v _ => hpt v), Finset.sum_add_distrib]

theorem pbpkPaint_sum (nv : ℕ) (maskRoiBody : ℕ → Fin nv → Bool) (voxelVolMl : ℚ)
    (time : List ℚ) (tacs : ℕ → ℕ → ℚ) (voisPbpk : List String)
    (frameStart : List ℚ) (t : ℕ) :
    ∀ (entries : List (String × ℕ)) (m : ℕ → Fin nv → ℚ)
      (sums : List (String × (ℕ → ℚ)))
      (out : (ℕ → Fin nv → ℚ) × List (String × (ℕ → ℚ))),
      pbpkPaint nv maskRoiBody voxelVolMl time tacs voisPbpk frameStart
          entries m sums = Except.ok out →
      List.Pairwise (MasksDisjoint maskRoiBody) entries →
      (∀ e ∈ entries, ∀ v, maskRoiBody e.2 v = true → m t v = 0) →
      ∃ newSums, out.2 = sums ++ newSums ∧
        (∑ v, out.1 t v) * voxelVolMl
          = (∑ v, m t v) * voxelVolMl + (newSums.map (fun p => p.2 t)).sum := by
  intro entries
  induction entries with
  | nil =>
    intro m sums out h _ _
    refine ⟨[], ?_, ?_⟩
    · rw [← (Prod.mk.injEq _ _ _ _).mp ((Except.ok.injEq _ _).mp h) |>.2]
      simp
    · rw [← (Prod.mk.injEq _ _ _ _).mp ((Except.ok.injEq _ _).mp h) |>.1]
      simp
  | cons hd rest ih =>
    intro m sums out h hpar hzero
    obtain ⟨roiName, labelValue⟩ := hd
    rw [pbpkPaint] at h
    split at h
    · exact absurd h (by simp)
    · rename_i res hgen
      have hfacts := generate_time_activity_arr_roi_ok_facts nv roiName labelValue
        maskRoiBody voxelVolMl time tacs voisPbpk frameStart res hgen
      have hdisj_hd := (List.pairwise_cons.mp hpar).1
      have hpar_rest := (List.pairwise_cons.mp hpar).2
      have hzero_rest : ∀ e ∈ rest, ∀ v, maskRoiBody e.2 v = true →
          (fun t v => if maskRoiBody labelValue v then res.activityMapOrgan t v else m t v)
            t v = 0 := by
        intro e he v hv
        have hne : ¬(maskRoiBody labelValue v = true) := by
          intro hl
          exact hdisj_hd e he v ⟨hl, hv⟩
        simp only [if_neg hne]
        exact hzero e (List.mem_cons_of_mem _ he) v hv
      obtain ⟨ns, hns, hsum⟩ := ih _ _ _ h hpar_rest hzero_rest
      refine ⟨(roiName, res.organSum) :: ns, ?_, ?_⟩
      · rw [hns]
        simp
      · rw [hsum]
        have hstep := sum_paint_step (fun v => m t v) (fun v => res.activityMapOrgan t v)
          (maskRoiBody labelValue)
          (fun v hv => hzero (roiName, labelValue) (List.mem_cons_self _ _) v hv)
          (fun v hv => hfacts.1 t v hv)
        simp only [List.map_cons, List.sum_cons]
        rw [hstep, hfacts.2 t]
        ring

/-- C3: for every frame `t`, the total activity obtained by summing the
aggregated whole-volume activity map over all voxels and multiplying by the
voxel volume (`activity_map_sum[t]`) equals the sum over all ROIs of
`activity_organ_sum[roi][t]`, exactly in the rational model, given that the
per-ROI masks are pairwise disjoint (disjoint labels of one segmentation). -/
theorem pbpk_mass_balance (nv : ℕ) (classSeg : List (String × ℕ))
    (maskRoiBody : ℕ → Fin nv → Bool) (voxelVolMl : ℚ) (time : List ℚ)
    (tacs : ℕ → ℕ → ℚ) (voisPbpk : List String) (frameStart : List ℚ)
    (res : PbpkRunResult nv)
    (h : pbpk_run nv classSeg maskRoiBody voxelVolMl time tacs voisPbpk frameStart
          = Except.ok res)
    (hdisj : List.Pairwise (MasksDisjoint maskRoiBody) (remove_background classSeg))
    (t : ℕ) :
    res.activityMapSum t = (res.activityOrganSum.map (fun p => p.2 t)).sum := by
  unfold pbpk_run at h
  split at h
  · exact absurd h (by simp)
  · rename_i m sums hpaint
    obtain ⟨ns, hns, hsum⟩ := pbpkPaint_sum nv maskRoiBody voxelVolMl time tacs
      voisPbpk frameStart t (remove_background classSeg) (fun _ _ => 0) [] (m, sums)
      hpaint hdisj (fun _ _ _ _ => rfl)
    have hres := (Except.ok.injEq _ _).mp h
    rw [← hres]
    show (∑ v, m t v) * voxelVolMl = (sums.map (fun p => p.2 t)).sum
    rw [hsum]
    simp only at hns
    rw [hns]
    simp

/-- Witness for C3 at a concrete input: a 3-voxel grid with body on voxel 0
and kidney on voxels 1 and 2 (disjoint masks), one frame. -/
theorem pbpk_mass_balance_witness :
    ∃ res : PbpkRunResult 3,
      pbpk_run 3 [("body", 1), ("kidney", 2)]
          (fun l v => decide ((l = 1 ∧ (v : ℕ) = 0) ∨ (l = 2 ∧ (v : ℕ) > 0)))
          (1 / 2) [0, 480] (fun ti _ => (ti : ℚ)) ["Kidney", "Rest"] [240]
        = Except.ok res ∧
      res.activityMapSum 0 = (res.activityOrganSum.map (fun p => p.2 0)).sum :=
  ⟨_, rfl, pbpk_mass_balance 3 [("body", 1), ("kidney", 2)]
    (fun l v => decide ((l = 1 ∧ (v : ℕ) = 0) ∨ (l = 2 ∧ (v : ℕ) > 0)))
    (1 / 2) [0, 480] (fun ti _ => (ti : ℚ)) ["Kidney", "Rest"] [240] _ rfl
    (by decide) 0⟩

/-! ## ROI unification
(src/stages/spect_pre_process/unify_ts_outputs.py, `TdtRoiUnifyStage._create_roi_unified`) -/

/-- Masked constant assignment `arr[cond] = val` into a uint8 numpy volume:
inside the condition the stored value is the label id reduced mod 256 (the
uint8 cast), elsewhere the previous contents are kept. -/
def paintLabel {nv : ℕ} (a : Fin nv → ℕ) (cond : Fin nv → Bool) (val : ℕ) :
    Fin nv → ℕ :=
  fun v => if cond v then val % 256 else a v

/-- Organ rows of the TOTAL-task block of `_create_roi_unified`
(unify_ts_outputs.py lines 198-213) in source painting order, with the
external names each TDT organ matches: kidney paints wherever the total
volume equals `kidney_left` or `kidney_right`; liver, prostate, spleen and
heart each over their single external label. -/
def totalOrgans : List (String × List String) :=
  [("kidney", ["kidney_left", "kidney_right"]),
   ("liver", ["liver"]),
   ("prostate", ["prostate"]),
   ("spleen", ["spleen"]),
   ("heart", ["heart"])]

/-- External gland names matched by the head-task block of
`_create_roi_unified` (unify_ts_outputs.py lines 223-227). -/
def glandNames : List String :=
  ["parotid_gland_left", "parotid_gland_right",
   "submandibular_gland_left", "submandibular_gland_right"]

/-- Canonical TDT organ names the unify stage can paint over body. -/
def TdtOrganNames : List String := totalOrgans.map Prod.fst ++ ["salivary_glands"]

/-- Canonical TDT names the unify stage can paint at all. -/
def TdtRoiNames : List String := "body" :: TdtOrganNames

/-- One organ row of the TOTAL-task block: when the organ is in the requested
subset, paint its TDT id wherever the total volume holds one of the organ's
expanded external labels; otherwise leave the accumulator unchanged. -/
def unifyStep (nv : ℕ) (tdt_name2id : String → ℕ) (total_name2id : String → ℤ)
    (requested : List String) (ts : Fin nv → ℤ) :
    (Fin nv → ℕ) → String × List String → Fin nv → ℕ :=
  fun acc p =>
    if requested.contains p.1 then
      paintLabel acc (fun v => (p.2.map total_name2id).contains (ts v)) (tdt_name2id p.1)
    else acc

/-- Translation of `TdtRoiUnifyStage._create_roi_unified` (unify_ts_outputs.py
lines 159-229).  The name→id maps come from `data/tdt_map.json`, a data file
that is not part of src/, so they are parameters.  Painting order as in the
source: start from zeros; always paint the body id wherever `body_seg > 0`;
when the total task ran, paint each requested TOTAL organ over its expanded
external labels; when the head task ran and salivary_glands is requested,
paint its id over the four gland labels.  All per-task arrays share the index
type `Fin nv`, realising the equal-shape case (on a shape mismatch the source
raises before painting). -/
def create_roi_unified (nv : ℕ) (tdt_name2id : String → ℕ)
    (total_name2id head_name2id : String → ℤ) (requested : List String)
    (body_seg : Fin nv → ℤ) (total_seg head_seg : Option (Fin nv → ℤ)) :
    Fin nv → ℕ :=
  let r0 : Fin nv → ℕ := fun _ => 0
  let r1 := paintLabel r0 (fun v => decide (0 < body_seg v)) (tdt_name2id "body")
  let r2 :=
    match total_seg with
    | none => r1
    | some ts => totalOrgans.foldl (unifyStep nv tdt_name2id total_name2id requested ts) r1
  match head_seg with
  | none => r2
  | some hs =>
    if requested.contains "salivary_glands" then
      paintLabel r2 (fun v => (glandNames.map head_name2id).contains (hs v))
        (tdt_name2id "salivary_glands")
    else r2

theorem unify_foldl_closed (nv : ℕ) (tdt_name2id : String → ℕ)
    (total_name2id : String → ℤ) (requested : List String) (ts : Fin nv → ℤ)
    (l : List (String × List String)) (acc : Fin nv → ℕ) (v : Fin nv) :
    (l.foldl (unifyStep nv tdt_name2id total_name2id requested ts) acc) v = acc v ∨
    ∃ p ∈ l, requested.contains p.1 = true ∧
      (p.2.map total_name2id).contains (ts v) = true ∧
      (l.foldl (unifyStep nv tdt_name2id total_name2id requested ts) acc) v
        = tdt_name2id p.1 % 256 := by
  induction l generalizing acc with
  | nil => exact Or.inl rfl
  | cons q l ih =>
    rw [List.foldl_cons]
    rcases ih (unifyStep nv tdt_name2id total_name2id requested ts acc q) with h | ⟨p, hp, hr, hc, he⟩
    · rw [h]
      unfold unifyStep paintLabel
      by_cases hq : requested.contains q.1 = true
      · rw [if_pos hq]
        by_cases hcv : (q.2.map total_name2id).contains (ts v) = true
        · rw [if_pos hcv]
          exact Or.inr ⟨q, List.mem_cons_self _ _, hq, hcv, rfl⟩
        · rw [if_neg hcv]
          exact Or.inl rfl
      · rw [if_neg hq]
        exact Or.inl rfl
    · exact Or.inr ⟨p, List.mem_cons_of_mem _ hp, hr, hc, he⟩

theorem unify_foldl_match (nv : ℕ) (tdt_name2id : String → ℕ)
    (total_name2id : String → ℤ) (requested : List String) (ts : Fin nv → ℤ)
    (l : List (String × List String)) (acc : Fin nv → ℕ) (v : Fin nv)
    (hmatch : ∃ p ∈ l, requested.contains p.1 = true ∧
      (p.2.map total_name2id).contains (ts v) = true) :
    ∃ p ∈ l, requested.contains p.1 = true ∧
      (p.2.map total_name2id).contains (ts v) = true ∧
      (l.foldl (unifyStep nv tdt_name2id total_name2id requested ts) acc) v
        = tdt_name2id p.1 % 256 := by
  induction l generalizing acc with
  | nil => exact absurd hmatch (by simp)
  | cons q l ih =>
    rw [List.foldl_cons]
    by_cases hrest : ∃ p ∈ l, requested.contains p.1 = true ∧
        (p.2.map total_name2id).contains (ts v) = true
    · obtain ⟨p, hp, hr, hc, he⟩ := ih (unifyStep nv tdt_name2id total_name2id requested ts acc q) hrest
      exact ⟨p, List.mem_cons_of_mem _ hp, hr, hc, he⟩
    · have hq : requested.contains q.1 = true ∧ (q.2.map total_name2id).contains (ts v) = true := by
        obtain ⟨p, hp, hr, hc⟩ := hmatch
        rcases List.mem_cons.mp hp with rfl | hpl
        · exact ⟨hr, hc⟩
        · exact absurd ⟨p, hpl, hr, hc⟩ hrest
      rcases unify_foldl_closed nv tdt_name2id total_name2id requested ts l
          (unifyStep nv tdt_name2id total_name2id requested ts acc q) v with h | ⟨p, hp, hr, hc, he⟩
      · refine ⟨q, List.mem_cons_self _ _, hq.1, hq.2, ?_⟩
        rw [h]
        unfold unifyStep paintLabel
        rw [if_pos hq.1, if_pos hq.2]
      · exact absurd ⟨p, hp, hr, hc⟩ hrest

/-- Voxel `v` matches a requested organ: either the total task ran and some
requested TOTAL organ's expanded external labels contain the total volume's
value at `v`, or the head task ran, salivary_glands is requested, and the head
volume's value at `v` is one of the four gland labels. -/
def OrganMatchAt (nv : ℕ) (total_name2id head_name2id : String → ℤ)
    (requested : List String) (total_seg head_seg : Option (Fin nv → ℤ))
    (v : Fin nv) : Prop :=
  (∃ ts, total_seg = some ts ∧ ∃ p ∈ totalOrgans, requested.contains p.1 = true ∧
    (p.2.map total_name2id).contains (ts v) = true) ∨
  (∃ hs, head_seg = some hs ∧ requested.contains "salivary_glands" = true ∧
    (glandNames.map head_name2id).contains (hs v) = true)

theorem create_roi_unified_closed (nv : ℕ) (tdt_name2id : String → ℕ)
    (total_name2id head_name2id : String → ℤ) (requested : List String)
    (body_seg : Fin nv → ℤ) (total_seg head_seg : Option (Fin nv → ℤ)) (v : Fin nv) :
    create_roi_unified nv tdt_name2id total_name2id head_name2id requested
        body_seg total_seg head_seg v = 0 ∨
      ∃ n ∈ TdtRoiNames,
        create_roi_unified nv tdt_name2id total_name2id head_name2id requested
          body_seg total_seg head_seg v = tdt_name2id n % 256 := by
  unfold create_roi_unified
  have hr1 : ∀ w : Fin nv,
      paintLabel (fun _ => (0 : ℕ)) (fun u => decide (0 < body_seg u)) (tdt_name2id "body") w = 0 ∨
      paintLabel (fun _ => (0 : ℕ)) (fun u => decide (0 < body_seg u)) (tdt_name2id "body") w
        = tdt_name2id "body" % 256 := by
    intro w
    unfold paintLabel
    by_cases hb : decide (0 < body_seg w) = true
    · rw [if_pos hb]
      exact Or.inr rfl
    · rw [if_neg hb]
      exact Or.inl rfl
  have hbodymem : "body" ∈ TdtRoiNames := by decide
  have hr2 : ∀ ts : Fin nv → ℤ, ∀ w : Fin nv,
      (totalOrgans.foldl (unifyStep nv tdt_name2id total_name2id requested ts)
        (paintLabel (fun _ => (0 : ℕ)) (fun u => decide (0 < body_seg u)) (tdt_name2id "body"))) w = 0 ∨
      ∃ n ∈ TdtRoiNames,
        (totalOrgans.foldl (unifyStep nv tdt_name2id total_name2id requested ts)
          (paintLabel (fun _ => (0 : ℕ)) (fun u => decide (0 < body_seg u)) (tdt_name2id "body"))) w
          = tdt_name2id n % 256 := by
    intro ts w
    rcases unify_foldl_closed nv tdt_name2id total_name2id requested ts totalOrgans
        (paintLabel (fun _ => (0 : ℕ)) (fun u => decide (0 < body_seg u)) (tdt_name2id "body")) w with
      h | ⟨p, hp, _, _, he⟩
    · rw [h]
      rcases hr1 w with h0 | h0
      · exact Or.inl h0
      · exact Or.inr ⟨"body", hbodymem, h0⟩
    · refine Or.inr ⟨p.1, ?_, he⟩
      unfold TdtRoiNames TdtOrganNames
      exact List.mem_cons_of_mem _ (List.mem_append_left _ (List.mem_map_of_mem _ hp))
  cases htot : total_seg with
  | none =>
    cases hhead : head_seg with
    | none => exact hr1 v |>.imp id (fun h => ⟨"body", hbodymem, h⟩)
    | some hs =>
      dsimp only
      by_cases hsal : requested.contains "salivary_glands" = true
      · rw [if_pos hsal]
        unfold paintLabel
        by_cases hc : (glandNames.map head_name2id).contains (hs v) = true
        · rw [if_pos hc]
          exact Or.inr ⟨"salivary_glands", by decide, rfl⟩
        · rw [if_neg hc]
          exact hr1 v |>.imp id (fun h => ⟨"body", hbodymem, h⟩)
      · rw [if_neg hsal]
        exact hr1 v |>.imp id (fun h => ⟨"body", hbodymem, h⟩)
  | some ts =>
    cases hhead : head_seg with
    | none => exact hr2 ts v
    | some hs =>
      dsimp only
      by_cases hsal : requested.contains "salivary_glands" = true
      · rw [if_pos hsal]
        unfold paintLabel
        by_cases hc : (glandNames.map head_name2id).contains (hs v) = true
        · rw [if_pos hc]
          exact Or.inr ⟨"salivary_glands", by decide, rfl⟩
        · rw [if_neg hc]
          exact hr2 ts v
      · rw [if_neg hsal]
        exact hr2 ts v

theorem create_roi_unified_organ (nv : ℕ) (tdt_name2id : String → ℕ)
    (total_name2id head_name2id : String → ℤ) (requested : List String)
    (body_seg : Fin nv → ℤ) (total_seg head_seg : Option (Fin nv → ℤ)) (v : Fin nv)
    (hm : OrganMatchAt nv total_name2id head_name2id requested total_seg head_seg v) :
    ∃ o ∈ TdtOrganNames,
      create_roi_unified nv tdt_name2id total_name2id head_name2id requested
        body_seg total_seg head_seg v = tdt_name2id o % 256 := by
  unfold create_roi_unified
  have hsalmem : "salivary_glands" ∈ TdtOrganNames := by decide
  have hr2m : ∀ ts : Fin nv → ℤ,
      (∃ p ∈ totalOrgans, requested.contains p.1 = true ∧
        (p.2.map total_name2id).contains (ts v) = true) →
      ∃ o ∈ TdtOrganNames,
        (totalOrgans.foldl (unifyStep nv tdt_name2id total_name2id requested ts)
          (paintLabel (fun _ => (0 : ℕ)) (fun u => decide (0 < body_seg u)) (tdt_name2id "body"))) v
          = tdt_name2id o % 256 := by
    intro ts hmt
    obtain ⟨p, hp, _, _, he⟩ := unify_foldl_match nv tdt_name2id total_name2id requested ts
      totalOrgans (paintLabel (fun _ => (0 : ℕ)) (fun u => decide (0 < body_seg u))
        (tdt_name2id "body")) v hmt
    refine ⟨p.1, ?_, he⟩
    unfold TdtOrganNames
    exact List.mem_append_left _ (List.mem_map_of_mem _ hp)
  cases htot : total_seg with
  | none =>
    cases hhead : head_seg with
    | none =>
      rcases hm with ⟨ts, hts, -⟩ | ⟨hs, hhs, -, -⟩
      · rw [htot] at hts
        exact absurd hts (by simp)
      · rw [hhead] at hhs
        exact absurd hhs (by simp)
    | some hs =>
      rcases hm with ⟨ts, hts, -⟩ | ⟨hs2, hhs, hsal, hc⟩
      · rw [htot] at hts
        exact absurd hts (by simp)
      · rw [hhead] at hhs
        have hhs2 : hs2 = hs := ((Option.some.injEq _ _).mp hhs).symm
        rw [hhs2] at hc
        dsimp only
        rw [if_pos hsal]
        unfold paintLabel
        rw [if_pos hc]
        exact ⟨"salivary_glands", hsalmem, rfl⟩
  | some ts =>
    have hmt2 : ∀ ts2 : Fin nv → ℤ, some ts2 = some ts →
        (∃ p ∈ totalOrgans, requested.contains p.1 = true ∧
          (p.2.map total_name2id).contains (ts2 v) = true) →
        (∃ p ∈ totalOrgans, requested.contains p.1 = true ∧
          (p.2.map total_name2id).contains (ts v) = true) := by
      intro ts2 hts2 h
      have : ts2 = ts := (Option.some.injEq _ _).mp hts2
      rwa [this] at h
    cases hhead : head_seg with
    | none =>
      rcases hm with ⟨ts2, hts, hmt⟩ | ⟨hs, hhs, -, -⟩
      · rw [htot] at hts
        exact hr2m ts (hmt2 ts2 hts.symm hmt)
      · rw [hhead] at hhs
        exact absurd hhs (by simp)
    | some hs =>
      dsimp only
      by_cases hsal : requested.contains "salivary_glands" = true
      · rw [if_pos hsal]
        by_cases hc : (glandNames.map head_name2id).contains (hs v) = true
        · refine ⟨"salivary_glands", hsalmem, ?_⟩
          unfold paintLabel
          rw [if_pos hc]
        · rcases hm with ⟨ts2, hts, hmt⟩ | ⟨hs2, hhs, -, hc2⟩
          · obtain ⟨o, ho, he⟩ := by
              rw [htot] at hts
              exact hr2m ts (hmt2 ts2 hts.symm hmt)
            refine ⟨o, ho, ?_⟩
            unfold paintLabel
            rw [if_neg hc]
            exact he
          · rw [hhead] at hhs
            have hhs2 : hs2 = hs := ((Option.some.injEq _ _).mp hhs).symm
            rw [hhs2] at hc2
            exact absurd hc2 hc
      · rw [if_neg hsal]
        rcases hm with ⟨ts2, hts, hmt⟩ | ⟨hs2, hhs, hsal2, -⟩
        · rw [htot] at hts
          exact hr2m ts (hmt2 ts2 hts.symm hmt)
        · exact absurd hsal2 hsal

/-- C5: for all input body/total/head segmentation arrays, (a) every voxel of
the unified ROI volume is 0 or carries the (uint8-cast) TDT id of one of the
canonical names the stage paints, and (b) later painting wins over body: a
voxel matching any requested organ carries the TDT id of a requested organ —
hence, when the organ ids differ from the body id as in the canonical label
map, not the body id that was painted first. -/
theorem roi_unified_label_closed_and_organ_over_body (nv : ℕ)
    (tdt_name2id : String → ℕ) (total_name2id head_name2id : String → ℤ)
    (requested : List String) (body_seg : Fin nv → ℤ)
    (total_seg head_seg : Option (Fin nv → ℤ))
    (hbody : ∀ o ∈ TdtOrganNames, tdt_name2id o % 256 ≠ tdt_name2id "body" % 256)
    (v : Fin nv) :
    (create_roi_unified nv tdt_name2id total_name2id head_name2id requested
        body_seg total_seg head_seg v = 0 ∨
      ∃ n ∈ TdtRoiNames,
        create_roi_unified nv tdt_name2id total_name2id head_name2id requested
          body_seg total_seg head_seg v = tdt_name2id n % 256) ∧
    (OrganMatchAt nv total_name2id head_name2id requested total_seg head_seg v →
      (∃ o ∈ TdtOrganNames,
        create_roi_unified nv tdt_name2id total_name2id head_name2id requested
          body_seg total_seg head_seg v = tdt_name2id o % 256) ∧
      create_roi_unified nv tdt_name2id total_name2id head_name2id requested
        body_seg total_seg head_seg v ≠ tdt_name2id "body" % 256) := by
  refine ⟨create_roi_unified_closed nv tdt_name2id total_name2id head_name2id
    requested body_seg total_seg head_seg v, ?_⟩
  intro hm
  obtain ⟨o, ho, he⟩ := create_roi_unified_organ nv tdt_name2id total_name2id
    head_name2id requested body_seg total_seg head_seg v hm
  refine ⟨⟨o, ho, he⟩, ?_⟩
  rw [he]
  exact hbody o ho

/-- Witness for C5 at a concrete input: a 4-voxel grid, body on voxels 1-3,
kidney_left (external id 2) on voxel 1, with kidney requested; the canonical
ids body=1, kidney=2, ..., salivary_glands=7 from the TDT map. -/
theorem roi_unified_label_closed_and_organ_over_body_witness :
    (create_roi_unified 4
        (fun n => if n = "body" then 1 else if n = "kidney" then 2 else
          if n = "liver" then 3 else if n = "prostate" then 4 else
          if n = "spleen" then 5 else if n = "heart" then 6 else
          if n = "salivary_glands" then 7 else 0)
        (fun n => if n = "kidney_left" then 2 else if n = "kidney_right" then 3 else 100)
        (fun _ => 200) ["kidney"]
        (fun v => if (v : ℕ) = 0 then 0 else 1)
        (some (fun v => if (v : ℕ) = 1 then 2 else 0)) none ⟨1, by decide⟩
        = 2 ∧
      create_roi_unified 4
        (fun n => if n = "body" then 1 else if n = "kidney" then 2 else
          if n = "liver" then 3 else if n = "prostate" then 4 else
          if n = "spleen" then 5 else if n = "heart" then 6 else
          if n = "salivary_glands" then 7 else 0)
        (fun n => if n = "kidney_left" then 2 else if n = "kidney_right" then 3 else 100)
        (fun _ => 200) ["kidney"]
        (fun v => if (v : ℕ) = 0 then 0 else 1)
        (some (fun v => if (v : ℕ) = 1 then 2 else 0)) none ⟨1, by decide⟩
        ≠ 1) := by
  have h := roi_unified_label_closed_and_organ_over_body 4
    (fun n => if n = "body" then 1 else if n = "kidney" then 2 else
      if n = "liver" then 3 else if n = "prostate" then 4 else
      if n = "spleen" then 5 else if n = "heart" then 6 else
      if n = "salivary_glands" then 7 else 0)
    (fun n => if n = "kidney_left" then 2 else if n = "kidney_right" then 3 else 100)
    (fun _ => 200) ["kidney"]
    (fun v => if (v : ℕ) = 0 then 0 else 1)
    (some (fun v => if (v : ℕ) = 1 then 2 else 0)) none (by decide) ⟨1, by decide⟩
  have h2 := h.2 (Or.inl ⟨_, rfl,
    ⟨("kidney", ["kidney_left", "kidney_right"]), by decide, by decide, by decide⟩⟩)
  refine ⟨by decide, ?_⟩
  intro hone
  refine h2.2 ?_
  rw [hone]
  rfl

/-! ## Synthetic lesions
(src/src/stages/spect_pre_process/synthetic_lesions_stage.py, `SyntheticLesionsStage`) -/

/-- Voxel index in (Z, Y, X) order, as used throughout the lesion stage. -/
structure Vox where
  z : ℤ
  y : ℤ
  x : ℤ
deriving DecidableEq, Repr

/-- Anisotropic voxel spacing in mm, (Z, Y, X) order
(`_spacing_zyx_from_nifti`). -/
structure SpacingMm where
  z : ℚ
  y : ℚ
  x : ℚ
deriving DecidableEq, Repr

/-- Squared physical distance in mm² between two voxel indices: the summand
under the square root of `SyntheticLesionsStage._phys_dist_mm`
(synthetic_lesions_stage.py lines 121-129), which scales each index
difference by the per-axis spacing. -/
def phys_dist_sq (sp : SpacingMm) (a b : Vox) : ℚ :=
  (((a.z - b.z : ℤ) : ℚ) * sp.z) ^ 2 + (((a.y - b.y : ℤ) : ℚ) * sp.y) ^ 2
    + (((a.x - b.x : ℤ) : ℚ) * sp.x) ^ 2

theorem phys_dist_sq_symm (sp : SpacingMm) (a b : Vox) :
    phys_dist_sq sp a b = phys_dist_sq sp b a := by
  unfold phys_dist_sq
  push_cast
  ring

/-- Exact rendering of the float comparison `sqrt dsq < s` used by the
placement checks: a nonnegative square root is below `s` iff `s` is positive
and `dsq < s²`. -/
def dist_lt (dsq s : ℚ) : Bool :=
  decide (0 < s) && decide (dsq < s ^ 2)

/-- Pairwise-overlap test of `_place_lesion_centers`: the candidate `(c, r)`
collides with some already-placed lesion `(c_j, r_j)` iff
`phys_dist(c, c_j) < r + r_j + margin` (synthetic_lesions_stage.py lines
214-216 and 247-250). -/
def sep_violates (sp : SpacingMm) (marginMm : ℚ) (c : Vox) (r : ℚ)
    (placed : List (Vox × ℚ)) : Bool :=
  placed.any (fun cj => dist_lt (phys_dist_sq sp c cj.1) (r + cj.2 + marginMm))

/-- The `prob="user_defined"` branch of `_place_lesion_centers`
(synthetic_lesions_stage.py lines 202-220): validate each user center in
order — inside the ROI, boundary distance at least `r + margin` (via the
distance-transform values `distMm`, the scipy EDT being external), and no
collision with earlier placements — accumulating the placement list. -/
def place_user_defined (maskZyx : Vox → Bool) (distMm : Vox → ℚ) (sp : SpacingMm)
    (marginMm : ℚ) : List (Vox × ℚ) → List (Vox × ℚ) → Except String (List (Vox × ℚ))
  | [], placed => Except.ok placed
  | (c, r) :: rest, placed =>
    if maskZyx c = false then Except.error "User center not inside ROI"
    else if distMm c < r + marginMm then
      Except.error "User center too close to ROI boundary"
    else if sep_violates sp marginMm c r placed then
      Except.error "User center overlaps existing lesion"
    else place_user_defined maskZyx distMm sp marginMm rest (placed ++ [(c, r)])

/-- Attempt loop of the sampled branch (synthetic_lesions_stage.py lines
241-256): attempts are numbered from `a`; each draws the candidate `cands a`
(the rng draw `rng.choice` is modelled by the oracle baked into `cands`) and
returns the first accepted one; `none` after the fuel is exhausted. -/
def find_accepted (cands : ℕ → Vox) (ok : Vox → Bool) : ℕ → ℕ → Option Vox
  | _, 0 => none
  | a, n + 1 => if ok (cands a) then some (cands a) else find_accepted cands ok (a + 1) n

/-- Admissible candidate centers for a lesion of radius `r`:
`cand = np.argwhere(dist_mm >= r + margin_mm)` (synthetic_lesions_stage.py
lines 224-225), the grid being traversed in the order of `allVoxels`. -/
def cand_list (allVoxels : List Vox) (distMm : Vox → ℚ) (marginMm r : ℚ) : List Vox :=
  allVoxels.filter (fun v => decide (r + marginMm ≤ distMm v))

/-- Sampled branch of `_place_lesion_centers` (synthetic_lesions_stage.py
lines 222-264): for lesion `i` of radius `r`, the admissible candidates are
the voxels whose boundary distance is at least `r + margin`; error when none
exist; weights are clamped at 0 and their sum must be positive (the
uniform/gaussian weight computation — `exp` being transcendental — is
abstracted into `weightFn`, which only shapes the rng distribution); then up
to `maxAttempts` draws (the rng index sequence is the oracle `choose i a`,
out-of-range indices defaulting to the origin) are tested against the
already-placed lesions; exhaustion raises, acceptance appends and recurses. -/
def place_sampled (allVoxels : List Vox) (distMm : Vox → ℚ) (sp : SpacingMm)
    (marginMm : ℚ) (weightFn : Vox → ℚ) (choose : ℕ → ℕ → ℕ) (maxAttempts : ℕ) :
    ℕ → List ℚ → List (Vox × ℚ) → Except String (List (Vox × ℚ))
  | _, [], placed => Except.ok placed
  | i, r :: rest, placed =>
    if (cand_list allVoxels distMm marginMm r).isEmpty then
      Except.error "No valid candidate centers"
    else if ((cand_list allVoxels distMm marginMm r).map (fun v => max (weightFn v) 0)).sum ≤ 0 then
      Except.error "All candidate weights are zero"
    else
      match find_accepted
          (fun a => (cand_list allVoxels distMm marginMm r).getD (choose i a) ⟨0, 0, 0⟩)
          (fun c => !sep_violates sp marginMm c r placed) 0 maxAttempts with
      | none => Except.error "Failed to place lesion"
      | some c => place_sampled allVoxels distMm sp marginMm weightFn choose maxAttempts
          (i + 1) rest (placed ++ [(c, r)])

/-- Translation of `SyntheticLesionsStage._place_lesion_centers`
(synthetic_lesions_stage.py lines 175-264): dispatch between the
`user_defined` branch (validated fixed centers) and the sequential sampling
branch (lesion numbering starts at 1, as in `enumerate(radii_mm, start=1)`).
The distance-transform map `distMm` abstracts the external
`scipy.ndimage.distance_transform_edt` result. -/
def place_lesion_centers (allVoxels : List Vox) (maskZyx : Vox → Bool)
    (distMm : Vox → ℚ) (radiiMm : List ℚ) (sp : SpacingMm) (prob : String)
    (marginMm : ℚ) (weightFn : Vox → ℚ) (choose : ℕ → ℕ → ℕ) (maxAttempts : ℕ)
    (userCentersZyx : Option (List Vox)) : Except String (List (Vox × ℚ)) :=
  if prob = "user_defined" then
    match userCentersZyx with
    | none => Except.error "user_defined but user_centers_zyx is None"
    | some ucs =>
      if ucs.length ≠ radiiMm.length then
        Except.error "user_centers_zyx length must match radii_mm length"
      else place_user_defined maskZyx distMm sp marginMm (ucs.zip radiiMm) []
  else place_sampled allVoxels distMm sp marginMm weightFn choose maxAttempts 1 radiiMm []

/-- Separation of two placed lesions, exactly as accepted by the code's float
test: the threshold `r_i + r_j + margin` is nonpositive, or its square is at
most the squared physical center distance (the negation of `dist_lt`). -/
def SepPair (sp : SpacingMm) (marginMm : ℚ) (a b : Vox × ℚ) : Prop :=
  a.2 + b.2 + marginMm ≤ 0 ∨ (a.2 + b.2 + marginMm) ^ 2 ≤ phys_dist_sq sp a.1 b.1

theorem sepPair_real (sp : SpacingMm) (marginMm : ℚ) (a b : Vox × ℚ)
    (h : SepPair sp marginMm a b) :
    ((a.2 + b.2 + marginMm : ℚ) : ℝ) ≤ Real.sqrt ((phys_dist_sq sp a.1 b.1 : ℚ) : ℝ) := by
  rcases h with h | h
  · calc ((a.2 + b.2 + marginMm : ℚ) : ℝ) ≤ 0 := by exact_mod_cast h
    _ ≤ Real.sqrt ((phys_dist_sq sp a.1 b.1 : ℚ) : ℝ) := Real.sqrt_nonneg _
  · have h2 : (((a.2 + b.2 + marginMm : ℚ) : ℝ)) ^ 2 ≤ ((phys_dist_sq sp a.1 b.1 : ℚ) : ℝ) := by
      exact_mod_cast h
    calc ((a.2 + b.2 + marginMm : ℚ) : ℝ)
        ≤ |((a.2 + b.2 + marginMm : ℚ) : ℝ)| := le_abs_self _
      _ = Real.sqrt ((((a.2 + b.2 + marginMm : ℚ) : ℝ)) ^ 2) := (Real.sqrt_sq_eq_abs _).symm
      _ ≤ Real.sqrt ((phys_dist_sq sp a.1 b.1 : ℚ) : ℝ) := Real.sqrt_le_sqrt h2

theorem sep_violates_eq_false (sp : SpacingMm) (marginMm : ℚ) (c : Vox) (r : ℚ)
    (placed : List (Vox × ℚ)) (h : sep_violates sp marginMm c r placed = false) :
    ∀ p ∈ placed, SepPair sp marginMm p (c, r) := by
  intro p hp
  unfold sep_violates at h
  have hfalse := List.any_eq_false.mp h p hp
  unfold dist_lt at hfalse
  unfold SepPair
  by_cases hpos : 0 < r + p.2 + marginMm
  · by_cases hlt : phys_dist_sq sp c p.1 < (r + p.2 + marginMm) ^ 2
    · exact absurd (by rw [decide_eq_true hpos, decide_eq_true hlt]; rfl) hfalse
    · right
      have hge := le_of_not_lt hlt
      rw [phys_dist_sq_symm sp c p.1] at hge
      calc (p.2 + (c, r).2 + marginMm) ^ 2 = (r + p.2 + marginMm) ^ 2 := by ring
        _ ≤ phys_dist_sq sp p.1 (c, r).1 := hge
  · left
    have hle := le_of_not_lt hpos
    have heq : p.2 + (c, r).2 + marginMm = r + p.2 + marginMm := by ring
    linarith

theorem find_accepted_some (cands : ℕ → Vox) (ok : Vox → Bool) :
    ∀ (n a : ℕ) (c : Vox), find_accepted cands ok a n = some c → ok c = true := by
  intro n
  induction n with
  | zero =>
    intro a c h
    exact absurd h (by simp [find_accepted])
  | succ n ih =>
    intro a c h
    rw [find_accepted] at h
    by_cases hok : ok (cands a) = true
    · rw [if_pos hok] at h
      rw [← (Option.some.injEq _ _).mp h]
      exact hok
    · rw [if_neg hok] at h
      exact ih (a + 1) c h

theorem find_accepted_none_of_all (cands : ℕ → Vox) (ok : Vox → Bool)
    (h : ∀ b, ok (cands b) = false) : ∀ (n a : ℕ), find_accepted cands ok a n = none := by
  intro n
  induction n with
  | zero => intro a; rfl
  | succ n ih =>
    intro a
    rw [find_accepted, if_neg (by rw [h a]; exact Bool.false_ne_true)]
    exact ih (a + 1)

theorem pairwise_append_single (sp : SpacingMm) (marginMm : ℚ)
    (placed : List (Vox × ℚ)) (c : Vox) (r : ℚ)
    (hpair : List.Pairwise (SepPair sp marginMm) placed)
    (hsep : sep_violates sp marginMm c r placed = false) :
    List.Pairwise (SepPair sp marginMm) (placed ++ [(c, r)]) := by
  rw [List.pairwise_append]
  refine ⟨hpair, List.pairwise_singleton _ _, ?_⟩
  intro a ha b hb
  rw [List.mem_singleton.mp hb]
  exact sep_violates_eq_false sp marginMm c r placed hsep a ha

theorem place_user_defined_ok (maskZyx : Vox → Bool) (distMm : Vox → ℚ)
    (sp : SpacingMm) (marginMm : ℚ) :
    ∀ (pairs placed out : List (Vox × ℚ)),
      place_user_defined maskZyx distMm sp marginMm pairs placed = Except.ok out →
      List.Pairwise (SepPair sp marginMm) placed →
      out.length = placed.length + pairs.length ∧
        List.Pairwise (SepPair sp marginMm) out := by
  intro pairs
  induction pairs with
  | nil =>
    intro placed out h hpair
    rw [place_user_defined] at h
    rw [← (Except.ok.injEq _ _).mp h]
    exact ⟨by simp, hpair⟩
  | cons cr rest ih =>
    intro placed out h hpair
    obtain ⟨c, r⟩ := cr
    rw [place_user_defined] at h
    split at h
    · exact absurd h (by simp)
    · split at h
      · exact absurd h (by simp)
      · split at h
        · exact absurd h (by simp)
        · rename_i hsep
          have hsep' : sep_violates sp marginMm c r placed = false := by
            revert hsep
            cases sep_violates sp marginMm c r placed <;> simp
          obtain ⟨hl, hp⟩ := ih (placed ++ [(c, r)]) out h
            (pairwise_append_single sp marginMm placed c r hpair hsep')
          refine ⟨?_, hp⟩
          rw [hl]
          simp
          omega

theorem place_sampled_ok (allVoxels : List Vox) (distMm : Vox → ℚ) (sp : SpacingMm)
    (marginMm : ℚ) (weightFn : Vox → ℚ) (choose : ℕ → ℕ → ℕ) (maxAttempts : ℕ) :
    ∀ (rs : List ℚ) (i : ℕ) (placed out : List (Vox × ℚ)),
      place_sampled allVoxels distMm sp marginMm weightFn choose maxAttempts
          i rs placed = Except.ok out →
      List.Pairwise (SepPair sp marginMm) placed →
      out.length = placed.length + rs.length ∧
        List.Pairwise (SepPair sp marginMm) out := by
  intro rs
  induction rs with
  | nil =>
    intro i placed out h hpair
    rw [place_sampled] at h
    rw [← (Except.ok.injEq _ _).mp h]
    exact ⟨by simp, hpair⟩
  | cons r rest ih =>
    intro i placed out h hpair
    rw [place_sampled] at h
    split at h
    · exact absurd h (by simp)
    · split at h
      · exact absurd h (by simp)
      · split at h
        · exact absurd h (by simp)
        · rename_i c hfind
          have hok := find_accepted_some _ _ maxAttempts 0 c hfind
          have hsep' : sep_violates sp marginMm c r placed = false := by
            revert hok
            cases sep_violates sp marginMm c r placed <;> simp
          obtain ⟨hl, hp⟩ := ih (i + 1) (placed ++ [(c, r)]) out h
            (pairwise_append_single sp marginMm placed c r hpair hsep')
          refine ⟨?_, hp⟩
          rw [hl]
          simp
          omega

theorem pairwise_sep_get (sp : SpacingMm) (marginMm : ℚ) (placed : List (Vox × ℚ))
    (hp : List.Pairwise (SepPair sp marginMm) placed) :
    ∀ (i j : Fin placed.length), i ≠ j →
      (((placed.get i).2 + (placed.get j).2 + marginMm : ℚ) : ℝ)
        ≤ Real.sqrt ((phys_dist_sq sp (placed.get i).1 (placed.get j).1 : ℚ) : ℝ) := by
  intro i j hne
  rcases Nat.lt_trichotomy (i : ℕ) (j : ℕ) with hij | hij | hij
  · exact sepPair_real sp marginMm _ _ (List.pairwise_iff_get.mp hp i j hij)
  · exact absurd (Fin.ext hij) hne
  · have hr := sepPair_real sp marginMm _ _ (List.pairwise_iff_get.mp hp j i hij)
    have hcomm : ((placed.get i).2 + (placed.get j).2 + marginMm : ℚ)
        = ((placed.get j).2 + (placed.get i).2 + marginMm : ℚ) := by ring
    rw [hcomm, phys_dist_sq_symm sp (placed.get i).1 (placed.get j).1]
    exact hr

/-- C6: for every successful run of `_place_lesion_centers` with the
hard-coded `max_attempts_per_lesion = 4000` (both the sampled and the
`user_defined` schemes), all requested lesions are returned and every pair of
distinct returned lesions `i ≠ j` satisfies
`‖phys(c_i) − phys(c_j)‖ ≥ r_i + r_j + margin`; and in the sampled branch,
when no candidate satisfying the separation check is found within the 4000
attempts for some lesion (nonempty candidate set, positive weight sum), the
call fails with the placement error instead of returning centers. -/
theorem lesion_separation_and_exhaustion (allVoxels : List Vox)
    (maskZyx : Vox → Bool) (distMm : Vox → ℚ) (radiiMm : List ℚ) (sp : SpacingMm)
    (prob : String) (marginMm : ℚ) (weightFn : Vox → ℚ) (choose : ℕ → ℕ → ℕ)
    (userCentersZyx : Option (List Vox)) :
    (∀ placed, place_lesion_centers allVoxels maskZyx distMm radiiMm sp prob
        marginMm weightFn choose 4000 userCentersZyx = Except.ok placed →
      placed.length = radiiMm.length ∧
      ∀ (i j : Fin placed.length), i ≠ j →
        (((placed.get i).2 + (placed.get j).2 + marginMm : ℚ) : ℝ)
          ≤ Real.sqrt ((phys_dist_sq sp (placed.get i).1 (placed.get j).1 : ℚ) : ℝ)) ∧
    (∀ (i : ℕ) (r : ℚ) (rest : List ℚ) (placed : List (Vox × ℚ)),
      (cand_list allVoxels distMm marginMm r).isEmpty = false →
      ¬((cand_list allVoxels distMm marginMm r).map (fun v => max (weightFn v) 0)).sum ≤ 0 →
      find_accepted
          (fun a => (cand_list allVoxels distMm marginMm r).getD (choose i a) ⟨0, 0, 0⟩)
          (fun c => !sep_violates sp marginMm c r placed) 0 4000 = none →
      place_sampled allVoxels distMm sp marginMm weightFn choose 4000 i (r :: rest) placed
        = Except.error "Failed to place lesion") := by
  constructor
  · intro placed h
    unfold place_lesion_centers at h
    by_cases hprob : prob = "user_defined"
    · rw [if_pos hprob] at h
      split at h
      · exact absurd h (by simp)
      · rename_i ucs
        split at h
        · exact absurd h (by simp)
        · rename_i hlen
          have hlen2 : ucs.length = radiiMm.length := not_not.mp hlen
          obtain ⟨hl, hp⟩ := place_user_defined_ok maskZyx distMm sp marginMm
            (ucs.zip radiiMm) [] placed h List.Pairwise.nil
          refine ⟨?_, pairwise_sep_get sp marginMm placed hp⟩
          rw [hl, List.length_zip, hlen2]
          simp
    · rw [if_neg hprob] at h
      obtain ⟨hl, hp⟩ := place_sampled_ok allVoxels distMm sp marginMm weightFn
        choose 4000 radiiMm 1 [] placed h List.Pairwise.nil
      refine ⟨?_, pairwise_sep_get sp marginMm placed hp⟩
      rw [hl]
      simp
  · intro i r rest placed hne hw hfind
    rw [place_sampled, if_neg (by rw [hne]; exact Bool.false_ne_true), if_neg hw, hfind]

/-- Witness for C6 at concrete inputs: (a) two unit-radius user-defined
lesions 10 mm apart on a grid with boundary distance 5 mm everywhere are
accepted, and the theorem applies to the result; (b) with one admissible
candidate colliding with an already-placed lesion, all 4000 attempts fail and
the sampled loop returns the placement error. -/
theorem lesion_separation_and_exhaustion_witness :
    (∃ placed, place_lesion_centers [⟨0, 0, 0⟩, ⟨0, 0, 10⟩] (fun _ => true)
        (fun _ => 5) [1, 1] ⟨1, 1, 1⟩ "user_defined" 1 (fun _ => 1)
        (fun i _ => i - 1) 4000 (some [⟨0, 0, 0⟩, ⟨0, 0, 10⟩])
        = Except.ok placed ∧ placed.length = 2) ∧
    place_sampled [⟨0, 0, 1⟩] (fun _ => 100) ⟨1, 1, 1⟩ 1 (fun _ => 1)
        (fun _ _ => 0) 4000 2 [5] [(⟨0, 0, 0⟩, 5)]
      = Except.error "Failed to place lesion" := by
  have h := lesion_separation_and_exhaustion [⟨0, 0, 0⟩, ⟨0, 0, 10⟩] (fun _ => true)
    (fun _ => 5) [1, 1] ⟨1, 1, 1⟩ "user_defined" 1 (fun _ => 1) (fun i _ => i - 1)
    (some [⟨0, 0, 0⟩, ⟨0, 0, 10⟩])
  have h2 := lesion_separation_and_exhaustion [⟨0, 0, 1⟩] (fun _ => true)
    (fun _ => 100) [5] ⟨1, 1, 1⟩ "uniform" 1 (fun _ => 1) (fun _ _ => 0) none
  have hev : place_lesion_centers [⟨0, 0, 0⟩, ⟨0, 0, 10⟩] (fun _ => true)
      (fun _ => 5) [1, 1] ⟨1, 1, 1⟩ "user_defined" 1 (fun _ => 1)
      (fun i _ => i - 1) 4000 (some [⟨0, 0, 0⟩, ⟨0, 0, 10⟩])
      = Except.ok [(⟨0, 0, 0⟩, 1), (⟨0, 0, 10⟩, 1)] := by
    norm_num [place_lesion_centers, place_user_defined, sep_violates, dist_lt,
      phys_dist_sq]
  have hempty : (cand_list [(⟨0, 0, 1⟩ : Vox)] (fun _ => 100) 1 5).isEmpty = false := by
    norm_num [cand_list, List.filter]
  have hwsum : ¬((cand_list [(⟨0, 0, 1⟩ : Vox)] (fun _ => 100) 1 5).map
      (fun v => max ((fun _ : Vox => (1 : ℚ)) v) 0)).sum ≤ 0 := by
    norm_num [cand_list, List.filter]
  have hall : ∀ b : ℕ, (fun c => !sep_violates ⟨1, 1, 1⟩ 1 c 5 [(⟨0, 0, 0⟩, 5)])
      ((cand_list [(⟨0, 0, 1⟩ : Vox)] (fun _ => 100) 1 5).getD
        ((fun _ _ : ℕ => (0 : ℕ)) 2 b) ⟨0, 0, 0⟩) = false := by
    intro b
    norm_num [cand_list, List.filter, sep_violates, dist_lt, phys_dist_sq]
  refine ⟨⟨_, hev, (h.1 _ hev).1⟩, ?_⟩
  exact h2.2 2 5 [] [(⟨0, 0, 0⟩, 5)] hempty hwsum
    (find_accepted_none_of_all _ _ hall 4000 0)

/-- Per-ROI lesion request from `config["synthetic_lesions"]["specs"]`
(synthetic_lesions_stage.py lines 375-381); `sigma_mm` and `seed` only shape
the weight and rng oracles and are carried there. -/
structure RoiSpec where
  nLesions : ℕ
  radiiMm : List ℚ
  prob : String
  marginMm : ℚ
  userCentersZyx : Option (List Vox)
deriving DecidableEq, Repr

/-- On-disk state the synthetic-lesions stage touches: the unified
segmentation file `tdt_roi_seg_path` and the pre-lesion backup
`tdt_roi_seg_pre_lesions.nii.gz` (none before the stage writes it). -/
structure LesionFs where
  segOnDisk : Vox → ℕ
  backup : Option (Vox → ℕ)

/-- Rasterised lesion coverage for one ROI: a voxel is a lesion voxel iff it
is inside the ROI mask and inside some placed sphere
(`_build_lesion_labelmap`, synthetic_lesions_stage.py lines 281-300; the
per-axis `ceil` bounding box there only limits iteration and covers the whole
sphere, so membership is the sphere inequality intersected with the mask). -/
def roi_lesion_mask (sp : SpacingMm) (mask : Vox → Bool) (placed : List (Vox × ℚ))
    (v : Vox) : Bool :=
  mask v && placed.any (fun cr => decide (phys_dist_sq sp v cr.1 ≤ cr.2 ^ 2))

/-- Per-ROI loop of `SyntheticLesionsStage.run` (synthetic_lesions_stage.py
lines 363-420), restricted to its effect on the global lesion mask: validate
the ROI name against the TDT map, reject `synthetic_lesion` itself, build the
organ mask from the unified seg loaded from disk, reject an empty mask, bad
`n_lesions`/`radii_mm`, and a missing `user_centers_zyx` for the
`user_defined` scheme; then place the centers and OR the rasterised lesions
into the accumulated global binary mask.  The first raised error aborts the
loop. -/
def lesionLoop (tdt_name2id : String → ℕ) (tdtNames : List String)
    (allVoxels : List Vox) (sp : SpacingMm) (seg : Vox → ℕ)
    (distFn : String → Vox → ℚ) (weightFn : String → Vox → ℚ)
    (chooseFn : String → ℕ → ℕ → ℕ) :
    List (String × RoiSpec) → (Vox → Bool) → Except String (Vox → Bool)
  | [], g => Except.ok g
  | (roiName, spec) :: rest, g =>
    if tdtNames.contains roiName = false then
      Except.error ("ROI " ++ roiName ++ " not found in TDT_Pipeline label map")
    else if roiName = "synthetic_lesion" then
      Except.error "Do not specify lesions inside ROI synthetic_lesion"
    else if (allVoxels.filter (fun v => decide (seg v = tdt_name2id roiName))).isEmpty then
      Except.error (roiName ++ " mask is empty in unified segmentation")
    else if spec.nLesions = 0 then
      Except.error (roiName ++ " n_lesions must be greater than 0")
    else if spec.radiiMm.length ≠ spec.nLesions then
      Except.error (roiName ++ " radii_mm length must match n_lesions")
    else if spec.prob = "user_defined" ∧ spec.userCentersZyx = none then
      Except.error (roiName ++ " user_defined requires user_centers_zyx in config")
    else
      match place_lesion_centers allVoxels
          (fun v => decide (seg v = tdt_name2id roiName)) (distFn roiName)
          spec.radiiMm sp spec.prob spec.marginMm (weightFn roiName)
          (chooseFn roiName) 4000 spec.userCentersZyx with
      | Except.error e => Except.error e
      | Except.ok placed =>
        lesionLoop tdt_name2id tdtNames allVoxels sp seg distFn weightFn chooseFn rest
          (fun v => g v ||
            roi_lesion_mask sp (fun w => decide (seg w = tdt_name2id roiName)) placed v)

/-- Translation of `SyntheticLesionsStage.run` (synthetic_lesions_stage.py
lines 317-503), restricted to its effect on the two on-disk artifacts: with
no specs the stage is a no-op; otherwise it first writes the pre-lesion
backup, loads the unified seg once, runs the per-ROI loop, and ONLY when
every ROI's lesions were placed successfully overwrites `tdt_roi_seg_path`
with the `synthetic_lesion` label (uint8) on the global lesion mask,
preserving all other voxels; a raised error propagates before the overwrite
(the intermediate QC files are not modelled — none of them is the unified
seg). -/
def synthetic_lesions_run (tdt_name2id : String → ℕ) (tdtNames : List String)
    (synthLesionId : ℕ) (allVoxels : List Vox) (sp : SpacingMm)
    (specs : List (String × RoiSpec)) (distFn : String → Vox → ℚ)
    (weightFn : String → Vox → ℚ) (chooseFn : String → ℕ → ℕ → ℕ)
    (fs : LesionFs) : LesionFs × Option String :=
  if specs.isEmpty then (fs, none)
  else
    match lesionLoop tdt_name2id tdtNames allVoxels sp fs.segOnDisk distFn weightFn
        chooseFn specs (fun _ => false) with
    | Except.error e => (⟨fs.segOnDisk, some fs.segOnDisk⟩, some e)
    | Except.ok g =>
      (⟨fun v => if g v then synthLesionId % 256 else fs.segOnDisk v,
        some fs.segOnDisk⟩, none)

/-- C7: if the synthetic-lesions stage fails with an error for any ROI
(placement errors included), the unified segmentation contents on disk are
unchanged — the overwrite of `tdt_roi_seg_path` happens only after every
ROI's lesions were placed successfully — and the backup written before the
loop equals the pre-lesion segmentation. -/
theorem lesions_error_preserves_seg (tdt_name2id : String → ℕ)
    (tdtNames : List String) (synthLesionId : ℕ) (allVoxels : List Vox)
    (sp : SpacingMm) (specs : List (String × RoiSpec))
    (distFn : String → Vox → ℚ) (weightFn : String → Vox → ℚ)
    (chooseFn : String → ℕ → ℕ → ℕ) (fs : LesionFs) (res : LesionFs)
    (err : String)
    (h : synthetic_lesions_run tdt_name2id tdtNames synthLesionId allVoxels sp
          specs distFn weightFn chooseFn fs = (res, some err)) :
    res.segOnDisk = fs.segOnDisk ∧ res.backup = some fs.segOnDisk := by
  unfold synthetic_lesions_run at h
  split at h
  · have h2 := (Prod.mk.injEq _ _ _ _).mp h
    exact absurd h2.2 (by simp)
  · split at h
    · have h2 := (Prod.mk.injEq _ _ _ _).mp h
      rw [← h2.1]
      exact ⟨rfl, rfl⟩
    · have h2 := (Prod.mk.injEq _ _ _ _).mp h
      exact absurd h2.2 (by simp)

/-- Witness for C7 at a concrete input: one prostate spec with a user-defined
center whose boundary distance (2 mm) is below radius + margin (6 mm); the
run returns the boundary error and the unified seg contents on disk are the
pre-lesion ones. -/
theorem lesions_error_preserves_seg_witness :
    (synthetic_lesions_run
        (fun n => if n = "prostate" then 4 else if n = "synthetic_lesion" then 8 else 0)
        ["body", "kidney", "liver", "prostate", "spleen", "heart",
          "salivary_glands", "synthetic_lesion"]
        8 [⟨0, 0, 0⟩] ⟨1, 1, 1⟩
        [("prostate", ⟨1, [5], "user_defined", 1, some [⟨0, 0, 0⟩]⟩)]
        (fun _ _ => 2) (fun _ _ => 1) (fun _ _ _ => 0)
        ⟨fun v => if v = ⟨0, 0, 0⟩ then 4 else 0, none⟩).2
      = some "User center too close to ROI boundary" ∧
    (synthetic_lesions_run
        (fun n => if n = "prostate" then 4 else if n = "synthetic_lesion" then 8 else 0)
        ["body", "kidney", "liver", "prostate", "spleen", "heart",
          "salivary_glands", "synthetic_lesion"]
        8 [⟨0, 0, 0⟩] ⟨1, 1, 1⟩
        [("prostate", ⟨1, [5], "user_defined", 1, some [⟨0, 0, 0⟩]⟩)]
        (fun _ _ => 2) (fun _ _ => 1) (fun _ _ _ => 0)
        ⟨fun v => if v = ⟨0, 0, 0⟩ then 4 else 0, none⟩).1.segOnDisk
      = (fun v => if v = ⟨0, 0, 0⟩ then 4 else 0) := by
  have hev : synthetic_lesions_run
      (fun n => if n = "prostate" then 4 else if n = "synthetic_lesion" then 8 else 0)
      ["body", "kidney", "liver", "prostate", "spleen", "heart",
        "salivary_glands", "synthetic_lesion"]
      8 [⟨0, 0, 0⟩] ⟨1, 1, 1⟩
      [("prostate", ⟨1, [5], "user_defined", 1, some [⟨0, 0, 0⟩]⟩)]
      (fun _ _ => 2) (fun _ _ => 1) (fun _ _ _ => 0)
      ⟨fun v => if v = ⟨0, 0, 0⟩ then 4 else 0, none⟩
      = (⟨fun v => if v = ⟨0, 0, 0⟩ then 4 else 0,
          some (fun v => if v = ⟨0, 0, 0⟩ then 4 else 0)⟩,
        some "User center too close to ROI boundary") := by
    norm_num [synthetic_lesions_run, lesionLoop, place_lesion_centers,
      place_user_defined, List.filter]
    rw [if_neg (by decide), if_neg (by decide)]
  have h := lesions_error_preserves_seg
    (fun n => if n = "prostate" then 4 else if n = "synthetic_lesion" then 8 else 0)
    ["body", "kidney", "liver", "prostate", "spleen", "heart",
      "salivary_glands", "synthetic_lesion"]
    8 [⟨0, 0, 0⟩] ⟨1, 1, 1⟩
    [("prostate", ⟨1, [5], "user_defined", 1, some [⟨0, 0, 0⟩]⟩)]
    (fun _ _ => 2) (fun _ _ => 1) (fun _ _ _ => 0)
    ⟨fun v => if v = ⟨0, 0, 0⟩ then 4 else 0, none⟩
    ⟨fun v => if v = ⟨0, 0, 0⟩ then 4 else 0,
      some (fun v => if v = ⟨0, 0, 0⟩ then 4 else 0)⟩
    "User center too close to ROI boundary" hev
  refine ⟨by rw [hev], ?_⟩
  calc (synthetic_lesions_run
        (fun n => if n = "prostate" then 4 else if n = "synthetic_lesion" then 8 else 0)
        ["body", "kidney", "liver", "prostate", "spleen", "heart",
          "salivary_glands", "synthetic_lesion"]
        8 [⟨0, 0, 0⟩] ⟨1, 1, 1⟩
        [("prostate", ⟨1, [5], "user_defined", 1, some [⟨0, 0, 0⟩]⟩)]
        (fun _ _ => 2) (fun _ _ => 1) (fun _ _ _ => 0)
        ⟨fun v => if v = ⟨0, 0, 0⟩ then 4 else 0, none⟩).1.segOnDisk
      = (⟨fun v => if v = ⟨0, 0, 0⟩ then 4 else 0,
          some (fun v => if v = ⟨0, 0, 0⟩ then 4 else 0)⟩ : LesionFs).segOnDisk := by
        rw [hev]
    _ = (⟨fun v => if v = ⟨0, 0, 0⟩ then 4 else 0, none⟩ : LesionFs).segOnDisk := h.1
    _ = (fun v => if v = ⟨0, 0, 0⟩ then 4 else 0) := rfl

end TdtSpec
